import Mathlib

set_option maxRecDepth 2048

/-!
# Verification of the gallerica daemon core

Shallow embedding of the gallerica image-rotation daemon (Rust) and proofs
about its scheduling and coordination engine: the pausable periodic timer
(`src/timer.rs`), the coalesced subprocess-update lifecycle, the anti-repeat
random selection, and the request dispatcher (`src/main.rs`).

Time is modelled as `Nat` (abstract time units; `tokio::time::Instant`
differences become truncated `Nat` subtraction, which under the monotonicity
hypotheses used below coincides with exact subtraction, and
`Duration::saturating_sub` is exactly truncated `Nat` subtraction).
Randomness (`rand`) and the file system (`read_dir`) are supplied as oracles,
never inspected by the embedded code beyond what the source does.
-/

namespace Gallerica

/-! ## Timer (`src/timer.rs`)

`tokio::time::Interval` is embedded as its next deadline together with the
period; `MissedTickBehavior::Delay` means a `tick` completes at
`max now deadline` and the next deadline is set one period after the
completion instant.  `Instant` values are `Nat` time stamps. -/

/-- The `TickResult` enum from `src/timer.rs`. -/
inductive TickResult where
  | Completed
  | Paused
deriving DecidableEq, Repr

/-- The `PausableInterval` struct from `src/timer.rs`.  The inner `tokio` `Interval`
field `delay` is represented by its `period` and its next `deadline`. -/
structure PausableInterval where
  period : Nat
  is_paused : Bool
  already_expired : Option Nat
  last_interaction : Nat
  deadline : Nat
deriving DecidableEq, Repr

namespace PausableInterval

/-- Embedding of `PausableInterval::new`: a fresh `tokio::time::interval` completes its
first tick immediately, so the initial deadline is `now`. -/
def new (interval now : Nat) : PausableInterval :=
  { period := interval
    is_paused := false
    already_expired := none
    last_interaction := now
    deadline := now }

/-- Embedding of `PausableInterval::pause` (src/timer.rs lines 57-71), called at instant
`now`. -/
def pause (s : PausableInterval) (now : Nat) (paused : Bool) : PausableInterval :=
  if s.is_paused = paused then s
  else
    { s with
      is_paused := paused
      already_expired :=
        if paused then
          some (s.already_expired.getD 0 + (now - s.last_interaction))
        else s.already_expired
      last_interaction := now }

/-- Embedding of `PausableInterval::tick` (src/timer.rs lines 30-48), called at instant
`now`.  Returns the `TickResult`, the state after the call, and the instant
at which the call completed.  In the `already_expired` branch the code sleeps
`period.saturating_sub(expired)` and then resets the inner interval, so the
completion instant is `now + (period - expired)` (truncated subtraction) and
the new deadline is one period later. -/
def tick (s : PausableInterval) (now : Nat) : TickResult × PausableInterval × Nat :=
  if s.is_paused then (.Paused, s, now)
  else
    match s.already_expired with
    | some e =>
      let expired := e + (now - s.last_interaction)
      let fin := now + (s.period - expired)
      (.Completed,
        { s with already_expired := none, deadline := fin + s.period, last_interaction := fin },
        fin)
    | none =>
      let fin := max now s.deadline
      (.Completed,
        { s with deadline := fin + s.period, last_interaction := fin },
        fin)

/-- Embedding of `PausableInterval::reset` (src/timer.rs lines 73-77), called at instant
`now`. -/
def reset (s : PausableInterval) (now : Nat) : PausableInterval :=
  { s with already_expired := none, last_interaction := now, deadline := now + s.period }

end PausableInterval

/-! ### Pause/resume traces

A trace between two `Completed` results is a list of (pause instant,
resume instant) cycles followed by the final `tick` call. -/

/-- Apply a list of pause/resume cycles to a timer. -/
def applyCycles (s : PausableInterval) : List (Nat × Nat) → PausableInterval
  | [] => s
  | (p, r) :: rest => applyCycles ((s.pause p true).pause r false) rest

/-- The instants in a cycle list are ordered, starting from `t0` and ending
before the final instant `t`. -/
def Chrono (t0 : Nat) : List (Nat × Nat) → Nat → Prop
  | [], t => t0 ≤ t
  | (p, r) :: rest, t => t0 ≤ p ∧ p ≤ r ∧ Chrono r rest t

/-- Total unpaused time from `t0` to `t`, excluding the pause/resume cycles
in the list. -/
def unpausedTime (t0 : Nat) : List (Nat × Nat) → Nat → Nat
  | [], t => t - t0
  | (p, r) :: rest, t => (p - t0) + unpausedTime r rest t

/-- The instant of the last resume in the cycle list (or `t0` if empty). -/
def lastResume (t0 : Nat) : List (Nat × Nat) → Nat
  | [] => t0
  | (_, r) :: rest => lastResume r rest

/-- The timer state immediately after a `Completed` tick at instant `t0`:
not paused, accumulator empty, inner deadline one period ahead. -/
def postCompleted (period t0 : Nat) : PausableInterval :=
  { period := period
    is_paused := false
    already_expired := none
    last_interaction := t0
    deadline := t0 + period }

theorem applyCycles_closed_form (period e t0 dl : Nat)
    (cycles : List (Nat × Nat)) :
    applyCycles ⟨period, false, some e, t0, dl⟩ cycles =
      ⟨period, false, some (e + unpausedTime t0 cycles (lastResume t0 cycles)),
        lastResume t0 cycles, dl⟩ := by
  induction cycles generalizing e t0 with
  | nil => simp [applyCycles, lastResume, unpausedTime]
  | cons c rest ih =>
    obtain ⟨p, r⟩ := c
    simp only [applyCycles, lastResume, unpausedTime]
    have hpause : PausableInterval.pause
        (PausableInterval.pause ⟨period, false, some e, t0, dl⟩ p true) r false =
        ⟨period, false, some (e + (p - t0)), r, dl⟩ := by
      simp [PausableInterval.pause]
    rw [hpause, ih]
    simp only [PausableInterval.mk.injEq, Option.some.injEq, true_and, and_true]
    omega

theorem chrono_lastResume_le (t0 : Nat) (cycles : List (Nat × Nat)) (t : Nat)
    (hc : Chrono t0 cycles t) : lastResume t0 cycles ≤ t := by
  induction cycles generalizing t0 with
  | nil => exact hc
  | cons c rest ih =>
    obtain ⟨p, r⟩ := c
    exact ih r hc.2.2

theorem unpausedTime_mono (t0 : Nat) (cycles : List (Nat × Nat)) (t t' : Nat)
    (hc : Chrono t0 cycles t) (h : t ≤ t') :
    unpausedTime t0 cycles t' = unpausedTime t0 cycles t + (t' - t) := by
  induction cycles generalizing t0 with
  | nil =>
    simp only [unpausedTime, Chrono] at *
    omega
  | cons c rest ih =>
    obtain ⟨p, r⟩ := c
    simp only [unpausedTime]
    rw [ih r hc.2.2]
    omega

theorem unpausedTime_at_lastResume (t0 : Nat) (cycles : List (Nat × Nat)) (t : Nat)
    (hc : Chrono t0 cycles t) :
    unpausedTime t0 cycles t =
      unpausedTime t0 cycles (lastResume t0 cycles) + (t - lastResume t0 cycles) := by
  induction cycles generalizing t0 with
  | nil =>
    simp only [unpausedTime, lastResume, Chrono] at *
    omega
  | cons c rest ih =>
    obtain ⟨p, r⟩ := c
    simp only [unpausedTime, lastResume]
    rw [ih r hc.2.2]
    omega

/-- Claim C1: between two consecutive `Completed` results, for any sequence of
pause/resume cycles and a final `tick` call made while the accumulated
unpaused time has not yet exceeded the interval, the total unpaused time from
the previous completion to the new completion equals the configured interval:
`pause(true)` adds the unpaused time elapsed since the last transition to the
accumulator, and the final `tick` sleeps exactly `interval - accumulated`, so
paused time is fully excluded. -/
theorem timer_unpaused_accounting (period t0 t : Nat) (cycles : List (Nat × Nat))
    (hc : Chrono t0 cycles t)
    (hU : unpausedTime t0 cycles t ≤ period) :
    ((applyCycles (postCompleted period t0) cycles).tick t).1 = TickResult.Completed ∧
    unpausedTime t0 cycles
      ((applyCycles (postCompleted period t0) cycles).tick t).2.2 = period := by
  cases cycles with
  | nil =>
    have h1 : t0 ≤ t := hc
    have h2 : t - t0 ≤ period := hU
    simp only [applyCycles, postCompleted, PausableInterval.tick, unpausedTime]
    norm_num
    omega
  | cons c rest =>
    obtain ⟨p, r⟩ := c
    have h0 : Chrono r rest t := hc.2.2
    have hstep : applyCycles (postCompleted period t0) ((p, r) :: rest) =
        ⟨period, false, some ((p - t0) + unpausedTime r rest (lastResume r rest)),
          lastResume r rest, t0 + period⟩ := by
      simp only [applyCycles]
      have h1 : PausableInterval.pause
          (PausableInterval.pause (postCompleted period t0) p true) r false =
          ⟨period, false, some (p - t0), r, t0 + period⟩ := by
        simp [PausableInterval.pause, postCompleted]
      rw [h1, applyCycles_closed_form]
    rw [hstep]
    have hL : lastResume r rest ≤ t := chrono_lastResume_le r rest t h0
    have hBt : unpausedTime r rest t =
        unpausedTime r rest (lastResume r rest) + (t - lastResume r rest) :=
      unpausedTime_at_lastResume r rest t h0
    have hUc : (p - t0) + unpausedTime r rest t ≤ period := hU
    simp only [PausableInterval.tick]
    norm_num
    simp only [unpausedTime]
    have hfin : t ≤ t + (period -
        ((p - t0) + unpausedTime r rest (lastResume r rest) + (t - lastResume r rest))) :=
      Nat.le_add_right _ _
    rw [unpausedTime_mono r rest t _ h0 hfin]
    omega

/-- Witness for C1: interval 100, two pause/resume cycles `(20,40)` and
`(60,80)`, final tick at 100 with 60 units of unpaused time consumed; the
tick completes at 140 and the unpaused total is exactly 100. -/
theorem timer_unpaused_accounting_witness :
    ((applyCycles (postCompleted 100 0) [(20, 40), (60, 80)]).tick 100).1 =
        TickResult.Completed ∧
    unpausedTime 0 [(20, 40), (60, 80)]
      ((applyCycles (postCompleted 100 0) [(20, 40), (60, 80)]).tick 100).2.2 = 100 :=
  timer_unpaused_accounting 100 0 100 [(20, 40), (60, 80)]
    (by norm_num [Chrono]) (by decide)

/-- Claim C10: if, when `tick()` is called on a resumed timer, the accumulated
unpaused time already reaches or exceeds the interval, the remaining wait is
computed with saturating subtraction, so the tick completes immediately
(completion instant = call instant) with `Completed`; no underflow or panic
is possible (`Nat` subtraction is total and truncated, exactly
`Duration::saturating_sub`). -/
theorem tick_saturating_no_underflow (s : PausableInterval) (now e : Nat)
    (hp : s.is_paused = false) (hae : s.already_expired = some e)
    (hover : s.period ≤ e + (now - s.last_interaction)) :
    (s.tick now).1 = TickResult.Completed ∧ (s.tick now).2.2 = now := by
  simp only [PausableInterval.tick, hp, hae]
  norm_num
  omega

/-- Witness for C10: interval 100, accumulated 150 at the tick call; the
tick completes immediately at the call instant. -/
theorem tick_saturating_no_underflow_witness :
    ((PausableInterval.mk 100 false (some 150) 0 0).tick 7).1 = TickResult.Completed ∧
    ((PausableInterval.mk 100 false (some 150) 0 0).tick 7).2.2 = 7 :=
  tick_saturating_no_underflow ⟨100, false, some 150, 0, 0⟩ 7 150 rfl rfl (by decide)

/-! ## Application state (`src/main.rs`) -/

/-- A file-system path (`PathBuf`), abstracted to a string. -/
abbrev FsPath := String

/-- The `circular_queue::CircularQueue` behind `recenty_selected`: a ring of
fixed `capacity`; `data` lists the elements newest first (the order of the
crate's `iter`; `asc_iter` is `data.reverse`).  A `push` on a zero-capacity
queue is a no-op (the crate returns the pushed element immediately). -/
structure CircularQueue (α : Type) where
  capacity : Nat
  data : List α
deriving DecidableEq, Repr

namespace CircularQueue

/-- The crate's `CircularQueue::with_capacity`. -/
def with_capacity (α : Type) (c : Nat) : CircularQueue α := ⟨c, []⟩

/-- The crate's `CircularQueue::push`: the new element becomes the newest;
on overflow the oldest element is dropped. -/
def push {α : Type} (q : CircularQueue α) (x : α) : CircularQueue α :=
  if q.capacity = 0 then q
  else { q with data := x :: q.data.take (q.capacity - 1) }

end CircularQueue

/-- The `Gallery` struct from `src/main.rs` (lines 59-64). -/
structure Gallery where
  name : String
  sources : List FsPath
deriving DecidableEq, Repr

/-- Modelled from the spec: the `Request` enum used by `main.rs`.  Its
declaration lives in a message-api module that is not present under `src/`
(the `message_api.rs` in this snapshot is an older revision without it);
section 6 of the spec gives the schema, matching the constructors
`main.rs` matches on. -/
inductive Request where
  | NextImage
  | Pause
  | Resume
  | UpdateInterval (millis : Nat)
  | SelectGallery (name : String) (refresh : Bool)
deriving DecidableEq, Repr

/-- Modelled from the spec: the `Response` enum (spec section 6), matching
the constructors `main.rs` returns. -/
inductive Response where
  | Ok
  | NewImage
  | InvalidGallery
  | BadRequest (message : String)
deriving DecidableEq, Repr

/-- The `CmdLinePart` enum from `src/main.rs` (lines 54-57). -/
inductive CmdLinePart where
  | Literal (s : String)
  | Placeholder
deriving DecidableEq, Repr

/-- A built `tokio::process::Command`: program plus argument list. -/
structure Cmd where
  program : String
  args : List String
deriving DecidableEq, Repr

/-- Embedding of `parse_args` from `src/main.rs` (lines 113-123): exactly the
token `\x7bimage\x7d` becomes the placeholder, everything else is literal. -/
def parse_args (args : List String) : List CmdLinePart :=
  args.map fun e => if e = "\x7bimage\x7d" then .Placeholder else .Literal e

/-- The `PersistentState` struct from `src/main.rs` (lines 94-109).  The
`Mutex` around the buffer is dropped: in this model every access happens
from the single main-loop thread. -/
structure PersistentState where
  current_gallery : Option String
  recenty_selected : CircularQueue FsPath
  is_paused : Bool
deriving DecidableEq, Repr

/-- The `ApplicationState` struct from `src/main.rs` (lines 66-92),
restricted to the fields the scheduling core reads or writes.  `galleries`
is the `HashMap` as an association list (inserts prepend, so `lookup` sees
the latest binding); `update_task` abstracts the `JoinHandle` of the running
display subprocess to the command it runs; the message channels and the
storage-file path are omitted (persistence is tracked as an effect flag in
the operations below). -/
structure ApplicationState where
  galleries : List (String × Gallery)
  update_interval : PausableInterval
  display_command : String
  display_args : List CmdLinePart
  update_task : Option Cmd
  pending_update : Option Cmd
  number_retries : Nat
  persistent : PersistentState
deriving DecidableEq, Repr

namespace ApplicationState

/-- Embedding of `add_gallery` (src/main.rs lines 162-164): `HashMap`
insert, replacing any previous binding of the same name. -/
def add_gallery (s : ApplicationState) (g : Gallery) : ApplicationState :=
  { s with galleries := (g.name, g) :: s.galleries }

/-- Embedding of `change_gallery` (src/main.rs lines 190-196): bails when
the name is not registered, otherwise sets the current gallery. -/
def change_gallery (s : ApplicationState) (name : String) :
    Except String ApplicationState :=
  if (s.galleries.lookup name).isSome then
    .ok { s with persistent := { s.persistent with current_gallery := some name } }
  else
    .error ("Invalid gallery " ++ name)

end ApplicationState

/-- The file system as an oracle: for a folder path, `none` models
`read_dir` failing, and `some l` gives the paths of the regular files in
that folder (the source's `entry.ok()` and `is_file()` filtering is folded
into the oracle). -/
abbrev FileSystem := FsPath → Option (List FsPath)

/-- File enumeration in `select_random_image` (src/main.rs lines 257-264):
folders that fail to open are silently skipped, the rest concatenated. -/
def allFilesOf (fs : FileSystem) (folders : List FsPath) : List FsPath :=
  (folders.filterMap fs).flatten

/-- The retry loop of `select_random_image` (src/main.rs lines 266-285).
`draws i` determines the index of the i-th `choose` call (taken modulo the
file count, so every oracle is a legal uniform draw); returns the selected
path (if any), the resulting recency buffer, and the number of draws made.
Recursion is on `triesLeft`, which the source decrements on every iteration
that neither returns nor accepts, so the loop provably terminates. -/
def selectLoop (all_files : List FsPath) (draws : Nat → Nat) :
    Nat → Nat → CircularQueue FsPath → Option FsPath × CircularQueue FsPath × Nat
  | triesLeft, i, buf =>
    match all_files[draws i % all_files.length]? with
    | none => (none, buf, i + 1)
    | some selection =>
      match triesLeft with
      | 0 => (some selection, buf, i + 1)
      | t + 1 =>
        if selection ∈ buf.data then
          selectLoop all_files draws t (i + 1) buf
        else
          (some selection, buf.push selection, i + 1)

namespace ApplicationState

/-- Embedding of `select_random_image` (src/main.rs lines 249-286).  Returns
the chosen path (if any) together with the recency buffer after the call
(the source mutates the buffer through the mutex). -/
def select_random_image (s : ApplicationState) (fs : FileSystem)
    (draws : Nat → Nat) : Option FsPath × CircularQueue FsPath :=
  match s.persistent.current_gallery with
  | none => (none, s.persistent.recenty_selected)
  | some gname =>
    match s.galleries.lookup gname with
    | none => (none, s.persistent.recenty_selected)
    | some gallery =>
      let all_files := allFilesOf fs gallery.sources
      let r := selectLoop all_files draws s.number_retries 0 s.persistent.recenty_selected
      (r.1, r.2.1)

/-- Command construction inside `update` (src/main.rs lines 213-227):
`Command::new(display_command)` with each template part either kept literal
or replaced by the selected path at the placeholder. -/
def buildCommand (s : ApplicationState) (replacement : FsPath) : Cmd :=
  { program := s.display_command
    args := s.display_args.map fun a =>
      match a with
      | .Literal t => t
      | .Placeholder => replacement }

end ApplicationState

/-- Result of `ApplicationState::update`: the new state, whether `persist()`
was called, and whether the "Discarding pending update" warning was
printed. -/
structure UpdateOutcome where
  state : ApplicationState
  persisted : Bool
  warnedDiscard : Bool
deriving DecidableEq, Repr

namespace ApplicationState

/-- Embedding of `ApplicationState::update` (src/main.rs lines 212-244).
If no image can be selected the function returns before touching anything
(neither slot, no persist).  Otherwise the buffer update made inside
`select_random_image` is kept, `persist()` runs, and the built command goes
to the pending slot — discarding a previously pending command, with a
warning, if the running slot is occupied — or is spawned into the running
slot. -/
def update (s : ApplicationState) (fs : FileSystem) (draws : Nat → Nat) :
    UpdateOutcome :=
  match s.select_random_image fs draws with
  | (none, _) => ⟨s, false, false⟩
  | (some path, buf) =>
    let cmd := s.buildCommand path
    let s1 := { s with persistent := { s.persistent with recenty_selected := buf } }
    match s1.update_task with
    | some _ => ⟨{ s1 with pending_update := some cmd }, true, s1.pending_update.isSome⟩
    | none => ⟨{ s1 with update_task := some cmd }, true, false⟩

end ApplicationState

/-- Outcome of the spawned update task: `Except.ok status` when the
subprocess ran to an exit status, `Except.error ()` when the task panicked —
in the source a spawn failure panics inside the spawned task via
`.unwrap()`, and awaiting the `JoinHandle` then yields a `JoinError` instead
of propagating the panic to the daemon. -/
abbrev TaskOutcome := Except Unit Int

namespace ApplicationState

/-- The run-loop branch for a finished update task (src/main.rs lines
343-350): the task's result is ignored (the `_ =` select pattern), the
running slot is cleared, and a pending command, if any, is promoted and
spawned. -/
def onTaskFinished (s : ApplicationState) (outcome : TaskOutcome) :
    ApplicationState :=
  let _ := outcome
  { s with update_task := s.pending_update, pending_update := none }

/-- Embedding of `handle_message` (src/main.rs lines 288-331), handled at
instant `now`.  The inbound message is `Except`-valued like
`msg.request()`; the returned `Bool` records whether `persist()` ran while
handling.  Sending the response over the transport is outside the model. -/
def handle_message (s : ApplicationState) (fs : FileSystem) (draws : Nat → Nat)
    (now : Nat) (msg : Except String Request) :
    ApplicationState × Response × Bool :=
  match msg with
  | .ok .NextImage =>
    let u := s.update fs draws
    let s1 := { u.state with update_interval := u.state.update_interval.reset now }
    (s1, .NewImage, u.persisted)
  | .ok (.UpdateInterval millis) =>
    let was_paused := s.update_interval.is_paused
    let timer := (PausableInterval.new millis now).pause now was_paused
    ({ s with update_interval := timer }, .NewImage, false)
  | .ok (.SelectGallery name refresh) =>
    match s.change_gallery name with
    | .error _ => (s, .InvalidGallery, false)
    | .ok s1 =>
      if refresh then
        let u := s1.update fs draws
        (u.state, .NewImage, u.persisted)
      else
        (s1, .NewImage, false)
  | .ok .Pause =>
    let timer := s.update_interval.pause now true
    ({ s with update_interval := timer,
              persistent := { s.persistent with is_paused := timer.is_paused } },
      .Ok, true)
  | .ok .Resume =>
    let timer := s.update_interval.pause now false
    ({ s with update_interval := timer,
              persistent := { s.persistent with is_paused := timer.is_paused } },
      .Ok, true)
  | .error err => (s, .BadRequest err, false)

/-- Embedding of `update_persistent_state` (src/main.rs lines 166-188), at
instant `now`.  When the incoming snapshot's buffer capacity differs from
the current target capacity, a fresh queue of the target capacity is filled
from the old buffer in ascending (oldest-first) order; a snapshot naming an
unregistered gallery is rejected. -/
def update_persistent_state (s : ApplicationState) (new_state : PersistentState)
    (now : Nat) : Except String ApplicationState :=
  let target_capacity := s.persistent.recenty_selected.capacity
  let actual_capacity := new_state.recenty_selected.capacity
  let new_state :=
    if actual_capacity ≠ target_capacity then
      let migrated := new_state.recenty_selected.data.reverse.foldl CircularQueue.push (CircularQueue.mk target_capacity [])
      { new_state with recenty_selected := migrated }
    else new_state
  match new_state.current_gallery with
  | some g =>
    if (s.galleries.lookup g).isSome then
      .ok { s with persistent := new_state,
                   update_interval := s.update_interval.pause now new_state.is_paused }
    else .error ("State uses invalid gallery " ++ g)
  | none =>
    .ok { s with persistent := new_state,
                 update_interval := s.update_interval.pause now new_state.is_paused }

/-- The persistent-state slice of `update_configuration` (src/main.rs lines
391-424), at instant `now`: `number_retries` is taken from the
configuration; when the configured buffer capacity differs from the current
one the in-memory buffer is replaced by an empty queue of the new capacity;
then, if a stored snapshot exists (`loaded`), it is applied through
`update_persistent_state`, and a rejected snapshot leaves the in-memory
state (the source deletes the corrupt file).  Gallery registration,
command-line parsing and listener setup are outside this slice. -/
def update_configuration_state (s : ApplicationState)
    (cfg_number_retries cfg_buffer_size : Nat)
    (loaded : Option PersistentState) (now : Nat) : ApplicationState :=
  let s0 := { s with number_retries := cfg_number_retries }
  let s1 :=
    if cfg_buffer_size ≠ s0.persistent.recenty_selected.capacity then
      { s0 with persistent := { s0.persistent with
          recenty_selected := ⟨cfg_buffer_size, []⟩ } }
    else s0
  match loaded with
  | none => s1
  | some st =>
    match s1.update_persistent_state st now with
    | .ok s2 => s2
    | .error _ => s1

end ApplicationState

/-! ## Concrete fixtures used by witnesses and counterexamples -/

/-- A file system with one folder `d` holding one regular file. -/
def fsA : FileSystem := fun p => if p = "d" then some ["a.jpg"] else none

/-- A file system where folder `d` holds a different single file. -/
def fsB : FileSystem := fun p => if p = "d" then some ["b.jpg"] else none

/-- A draw oracle that always picks index 0. -/
def zeroDraws : Nat → Nat := fun _ => 0

/-- A gallery named `g` with the single folder `d`. -/
def galleryG : Gallery := ⟨"g", ["d"]⟩

/-- A baseline application state: gallery `g` selected, empty recency buffer
of capacity 3, retry budget 0, no update running or pending. -/
def baseState : ApplicationState where
  galleries := [("g", galleryG)]
  update_interval := PausableInterval.new 100 0
  display_command := "feh"
  display_args := [CmdLinePart.Literal "--bg-fill", CmdLinePart.Placeholder]
  update_task := none
  pending_update := none
  number_retries := 0
  persistent := ⟨some "g", ⟨3, []⟩, false⟩

/-! ## Selection lemmas -/

theorem selectLoop_zero (af : List FsPath) (draws : Nat → Nat) (i : Nat)
    (buf : CircularQueue FsPath) :
    selectLoop af draws 0 i buf = (af[draws i % af.length]?, buf, i + 1) := by
  cases h : af[draws i % af.length]? with
  | none => simp [selectLoop, h]
  | some sel => simp [selectLoop, h]

theorem selectLoop_succ (af : List FsPath) (draws : Nat → Nat) (t i : Nat)
    (buf : CircularQueue FsPath) :
    selectLoop af draws (t + 1) i buf =
      match af[draws i % af.length]? with
      | none => (none, buf, i + 1)
      | some selection =>
        if selection ∈ buf.data then selectLoop af draws t (i + 1) buf
        else (some selection, buf.push selection, i + 1) := by
  rw [selectLoop.eq_def]

theorem selectLoop_isSome_count (af : List FsPath) (draws : Nat → Nat)
    (hne : af ≠ []) :
    ∀ (n i : Nat) (buf : CircularQueue FsPath),
      (selectLoop af draws n i buf).1.isSome ∧
      (selectLoop af draws n i buf).2.2 ≤ i + n + 1 := by
  intro n
  induction n with
  | zero =>
    intro i buf
    have hlt : draws i % af.length < af.length :=
      Nat.mod_lt _ (List.length_pos.mpr hne)
    rw [selectLoop_zero, List.getElem?_eq_getElem hlt]
    exact ⟨rfl, by simp⟩
  | succ t ih =>
    intro i buf
    have hlt : draws i % af.length < af.length :=
      Nat.mod_lt _ (List.length_pos.mpr hne)
    have hget := List.getElem?_eq_getElem hlt
    rw [selectLoop_succ]
    simp only [hget]
    split
    · have := ih (i + 1) buf
      exact ⟨this.1, by omega⟩
    · exact ⟨rfl, by show i + 1 ≤ i + (t + 1) + 1; omega⟩

theorem selectLoop_mem (af : List FsPath) (draws : Nat → Nat) :
    ∀ (n i : Nat) (buf : CircularQueue FsPath) (p : FsPath),
      (selectLoop af draws n i buf).1 = some p → p ∈ af := by
  intro n
  induction n with
  | zero =>
    intro i buf p hp
    rw [selectLoop_zero] at hp
    exact List.getElem?_mem hp
  | succ t ih =>
    intro i buf p hp
    rw [selectLoop_succ] at hp
    cases hget : af[draws i % af.length]? with
    | none =>
      rw [hget] at hp
      exact absurd hp (by simp)
    | some sel =>
      rw [hget] at hp
      simp only [] at hp
      split at hp
      · exact ih (i + 1) buf p hp
      · exact (Option.some.inj hp) ▸ List.getElem?_mem hget

theorem select_random_image_eq (s : ApplicationState) (fs : FileSystem)
    (draws : Nat → Nat) (g : String) (gallery : Gallery)
    (hg : s.persistent.current_gallery = some g)
    (hl : s.galleries.lookup g = some gallery) :
    s.select_random_image fs draws =
      ((selectLoop (allFilesOf fs gallery.sources) draws s.number_retries 0
          s.persistent.recenty_selected).1,
       (selectLoop (allFilesOf fs gallery.sources) draws s.number_retries 0
          s.persistent.recenty_selected).2.1) := by
  simp only [ApplicationState.select_random_image, hg, hl]

/-- Claim C9: when there is no currently selected gallery, or the selected
name is absent from the registry, `select_random_image` returns `none` with
the buffer untouched, and the resulting `update()` call is a complete no-op:
neither slot is touched and no snapshot is written (the state is returned
unchanged and the persist flag is false). -/
theorem select_none_update_noop (s : ApplicationState) (fs : FileSystem)
    (draws : Nat → Nat)
    (h : ∀ g, s.persistent.current_gallery = some g → s.galleries.lookup g = none) :
    s.select_random_image fs draws = (none, s.persistent.recenty_selected) ∧
    s.update fs draws = ⟨s, false, false⟩ := by
  have hsel : s.select_random_image fs draws = (none, s.persistent.recenty_selected) := by
    cases hcg : s.persistent.current_gallery with
    | none => simp only [ApplicationState.select_random_image, hcg]
    | some g => simp only [ApplicationState.select_random_image, hcg, h g hcg]
  exact ⟨hsel, by simp only [ApplicationState.update, hsel]⟩

/-- A state whose current gallery name `x` is not registered. -/
def cs9 : ApplicationState :=
  { baseState with persistent := { baseState.persistent with current_gallery := some "x" } }

/-- Witness for C9 at a state naming an unregistered gallery. -/
theorem select_none_update_noop_witness :
    cs9.select_random_image fsA zeroDraws = (none, cs9.persistent.recenty_selected) ∧
    cs9.update fsA zeroDraws = ⟨cs9, false, false⟩ :=
  select_none_update_noop cs9 fsA zeroDraws
    (by
      intro g hg
      have hx : g = "x" := (Option.some.inj hg).symm
      subst hx
      decide)

/-- Claim C3 (counterexample): with retry budget 0 the first draw is
accepted, but — contrary to the claim — the drawn path is NOT pushed into
the recency buffer: here the buffer (capacity 3) is still empty after the
selection returned `a.jpg`. -/
theorem select_budget_zero_cex :
    baseState.number_retries = 0 ∧
    baseState.persistent.recenty_selected.capacity = 3 ∧
    (baseState.select_random_image fsA zeroDraws).1 = some "a.jpg" ∧
    (baseState.select_random_image fsA zeroDraws).2 = baseState.persistent.recenty_selected ∧
    (baseState.select_random_image fsA zeroDraws).2.data = [] := by
  decide

/-- Claim C3 (amended): for every non-empty file set, when `number_retries`
is 0 `select_random_image` accepts the first uniformly drawn path without
consulting the recency buffer — and the buffer is returned unchanged (the
drawn path is not pushed; the `tries_left == 0` early return skips the
buffer entirely). -/
theorem select_budget_zero (s : ApplicationState) (fs : FileSystem)
    (draws : Nat → Nat) (g : String) (gallery : Gallery)
    (hr : s.number_retries = 0)
    (hg : s.persistent.current_gallery = some g)
    (hl : s.galleries.lookup g = some gallery)
    (hne : allFilesOf fs gallery.sources ≠ []) :
    ∃ p, (allFilesOf fs gallery.sources)[draws 0 % (allFilesOf fs gallery.sources).length]? = some p ∧
      s.select_random_image fs draws = (some p, s.persistent.recenty_selected) := by
  have hlt : draws 0 % (allFilesOf fs gallery.sources).length <
      (allFilesOf fs gallery.sources).length :=
    Nat.mod_lt _ (List.length_pos.mpr hne)
  refine ⟨(allFilesOf fs gallery.sources).get ⟨_, hlt⟩, ?_, ?_⟩
  · rw [List.getElem?_eq_getElem hlt]
    simp [List.get_eq_getElem]
  · rw [select_random_image_eq s fs draws g gallery hg hl, hr, selectLoop_zero,
      List.getElem?_eq_getElem hlt]
    simp [List.get_eq_getElem]

/-- Witness for the amended C3. -/
theorem select_budget_zero_witness :
    ∃ p, (allFilesOf fsA galleryG.sources)[zeroDraws 0 % (allFilesOf fsA galleryG.sources).length]? = some p ∧
      baseState.select_random_image fsA zeroDraws =
        (some p, baseState.persistent.recenty_selected) :=
  select_budget_zero baseState fsA zeroDraws "g" galleryG rfl rfl (by decide) (by decide)

/-- Claim C7: for every retry budget and every non-empty file set — in
particular one with fewer distinct files than the budget allows retries,
all of them possibly in the recency buffer — `select_random_image` returns
some path (possibly a repeat), and the retry loop makes at most
`number_retries + 1` draws; it cannot loop indefinitely because
`tries_left` is decremented on every rejecting iteration. -/
theorem select_random_image_terminates (s : ApplicationState) (fs : FileSystem)
    (draws : Nat → Nat) (g : String) (gallery : Gallery)
    (hg : s.persistent.current_gallery = some g)
    (hl : s.galleries.lookup g = some gallery)
    (hne : allFilesOf fs gallery.sources ≠ []) :
    (s.select_random_image fs draws).1.isSome ∧
    (selectLoop (allFilesOf fs gallery.sources) draws s.number_retries 0
        s.persistent.recenty_selected).2.2 ≤ s.number_retries + 1 := by
  have h := selectLoop_isSome_count (allFilesOf fs gallery.sources) draws hne
    s.number_retries 0 s.persistent.recenty_selected
  rw [select_random_image_eq s fs draws g gallery hg hl]
  exact ⟨h.1, by omega⟩

/-- A state with retry budget 3 whose recency buffer already holds the only
file of gallery `g`: selection still returns (a repeat) after at most 4
draws. -/
def cs7 : ApplicationState :=
  { baseState with
    number_retries := 3
    persistent := { baseState.persistent with recenty_selected := ⟨3, ["a.jpg"]⟩ } }

/-- Witness for C7: budget 3, a single file that is already in the buffer. -/
theorem select_random_image_terminates_witness :
    (cs7.select_random_image fsA zeroDraws).1.isSome ∧
    (selectLoop (allFilesOf fsA galleryG.sources) zeroDraws cs7.number_retries 0
        cs7.persistent.recenty_selected).2.2 ≤ cs7.number_retries + 1 :=
  select_random_image_terminates cs7 fsA zeroDraws "g" galleryG rfl rfl (by decide)

/-- Claim C8: a `SelectGallery` request naming an unregistered gallery
leaves the whole state unchanged, writes no snapshot, and returns
`InvalidGallery`; a subsequent selection (as performed by `NextImage`)
still draws from the previously selected, valid gallery's files. -/
theorem select_gallery_unknown (s : ApplicationState) (fs : FileSystem)
    (draws : Nat → Nat) (now : Nat) (name : String) (refresh : Bool)
    (hunk : s.galleries.lookup name = none) :
    s.handle_message fs draws now (.ok (.SelectGallery name refresh)) =
      (s, .InvalidGallery, false) ∧
    ∀ (fs2 : FileSystem) (d2 : Nat → Nat) (g : String) (gallery : Gallery) (p : FsPath),
      s.persistent.current_gallery = some g →
      s.galleries.lookup g = some gallery →
      ((s.handle_message fs draws now
          (.ok (.SelectGallery name refresh))).1.select_random_image fs2 d2).1 = some p →
      p ∈ allFilesOf fs2 gallery.sources := by
  have h1 : s.handle_message fs draws now (.ok (.SelectGallery name refresh)) =
      (s, .InvalidGallery, false) := by
    simp only [ApplicationState.handle_message, ApplicationState.change_gallery, hunk]
    simp
  refine ⟨h1, ?_⟩
  intro fs2 d2 g gallery p hg hl hp
  rw [h1] at hp
  rw [select_random_image_eq s fs2 d2 g gallery hg hl] at hp
  exact selectLoop_mem _ d2 s.number_retries 0 s.persistent.recenty_selected p hp

/-- Witness for C8: base state, unknown gallery name `zzz`. -/
theorem select_gallery_unknown_witness :
    baseState.handle_message fsA zeroDraws 0 (.ok (.SelectGallery "zzz" true)) =
      (baseState, .InvalidGallery, false) ∧
    ∀ (fs2 : FileSystem) (d2 : Nat → Nat) (g : String) (gallery : Gallery) (p : FsPath),
      baseState.persistent.current_gallery = some g →
      baseState.galleries.lookup g = some gallery →
      ((baseState.handle_message fsA zeroDraws 0
          (.ok (.SelectGallery "zzz" true))).1.select_random_image fs2 d2).1 = some p →
      p ∈ allFilesOf fs2 gallery.sources :=
  select_gallery_unknown baseState fsA zeroDraws 0 "zzz" true (by decide)

/-! ## Update lifecycle lemmas -/

theorem update_eq_of_select_some (s : ApplicationState) (fs : FileSystem)
    (draws : Nat → Nat) (p : FsPath) (buf : CircularQueue FsPath)
    (hsel : s.select_random_image fs draws = (some p, buf)) :
    s.update fs draws =
      if s.update_task.isSome then
        ⟨{ s with persistent := { s.persistent with recenty_selected := buf },
                  pending_update := some (s.buildCommand p) }, true, s.pending_update.isSome⟩
      else
        ⟨{ s with persistent := { s.persistent with recenty_selected := buf },
                  update_task := some (s.buildCommand p) }, true, false⟩ := by
  obtain ⟨gals, ti, dc, da, ut, pu, nr, ps⟩ := s
  simp only [ApplicationState.update, hsel]
  cases ut with
  | some t => rfl
  | none => rfl

theorem update_eq_of_select_none (s : ApplicationState) (fs : FileSystem)
    (draws : Nat → Nat) (buf : CircularQueue FsPath)
    (hsel : s.select_random_image fs draws = (none, buf)) :
    s.update fs draws = ⟨s, false, false⟩ := by
  simp only [ApplicationState.update, hsel]

/-- Claim C2: when an update subprocess is running, each requested update is
stored in the single pending slot, replacing (and discarding, with a
warning) the previously pending command; when the running process exits,
exactly the latest-requested pending command is launched, and the
first-requested pending command is never launched (the running slot holds
`r` throughout, then the latest command). -/
theorem update_coalescing (s : ApplicationState) (fs1 fs2 : FileSystem)
    (d1 d2 : Nat → Nat) (r : Cmd) (outcome : TaskOutcome) (p1 p2 : FsPath)
    (b1 b2 : CircularQueue FsPath)
    (hrun : s.update_task = some r)
    (h1 : s.select_random_image fs1 d1 = (some p1, b1))
    (h2 : (s.update fs1 d1).state.select_random_image fs2 d2 = (some p2, b2)) :
    (s.update fs1 d1).state.update_task = some r ∧
    (s.update fs1 d1).state.pending_update = some (s.buildCommand p1) ∧
    ((s.update fs1 d1).state.update fs2 d2).state.update_task = some r ∧
    ((s.update fs1 d1).state.update fs2 d2).state.pending_update =
      some ((s.update fs1 d1).state.buildCommand p2) ∧
    ((s.update fs1 d1).state.update fs2 d2).warnedDiscard = true ∧
    (((s.update fs1 d1).state.update fs2 d2).state.onTaskFinished outcome).update_task =
      some ((s.update fs1 d1).state.buildCommand p2) ∧
    (((s.update fs1 d1).state.update fs2 d2).state.onTaskFinished outcome).pending_update =
      none := by
  obtain ⟨gals, ti, dc, da, ut, pu, nr, ps⟩ := s
  simp only at hrun
  subst hrun
  have hu1 := update_eq_of_select_some _ fs1 d1 p1 b1 h1
  simp only [Option.isSome_some, if_true] at hu1
  rw [hu1] at h2 ⊢
  have hu2 := update_eq_of_select_some _ fs2 d2 p2 b2 h2
  simp only [Option.isSome_some, if_true] at hu2
  rw [hu2]
  exact ⟨rfl, rfl, rfl, rfl, rfl, rfl, rfl⟩

/-- A running command used by lifecycle witnesses. -/
def runningCmd : Cmd := ⟨"feh", ["--bg-fill", "old.jpg"]⟩

/-- A state in which an update subprocess is currently running. -/
def cs2 : ApplicationState := { baseState with update_task := some runningCmd }

/-- Witness for C2: two updates requested while `runningCmd` runs; after the
exit, the command built from `b.jpg` (the second request) is launched. -/
theorem update_coalescing_witness :
    (cs2.update fsA zeroDraws).state.update_task = some runningCmd ∧
    (cs2.update fsA zeroDraws).state.pending_update = some (cs2.buildCommand "a.jpg") ∧
    ((cs2.update fsA zeroDraws).state.update fsB zeroDraws).state.update_task =
      some runningCmd ∧
    ((cs2.update fsA zeroDraws).state.update fsB zeroDraws).state.pending_update =
      some ((cs2.update fsA zeroDraws).state.buildCommand "b.jpg") ∧
    ((cs2.update fsA zeroDraws).state.update fsB zeroDraws).warnedDiscard = true ∧
    (((cs2.update fsA zeroDraws).state.update fsB zeroDraws).state.onTaskFinished
        (Except.ok 0)).update_task =
      some ((cs2.update fsA zeroDraws).state.buildCommand "b.jpg") ∧
    (((cs2.update fsA zeroDraws).state.update fsB zeroDraws).state.onTaskFinished
        (Except.ok 0)).pending_update = none :=
  update_coalescing cs2 fsA fsB zeroDraws zeroDraws runningCmd (Except.ok 0)
    "a.jpg" "b.jpg" cs2.persistent.recenty_selected
    (cs2.update fsA zeroDraws).state.persistent.recenty_selected
    rfl (by decide) (by decide)

/-- Claim C6: when spawning the display subprocess fails, the spawned task
panics and its `JoinHandle` resolves with an error; the run-loop branch
ignores the task's outcome, so the daemon does not crash and the lifecycle
is not stuck: the running slot is cleared exactly as for a normal exit, and
a subsequent update launches normally into the empty slot. -/
theorem task_failure_lifecycle (s : ApplicationState) (t : Cmd)
    (outcome : TaskOutcome) (fs : FileSystem) (draws : Nat → Nat) (p : FsPath)
    (b : CircularQueue FsPath)
    (hrun : s.update_task = some t)
    (hpend : s.pending_update = none)
    (hsel : (s.onTaskFinished outcome).select_random_image fs draws = (some p, b)) :
    s.onTaskFinished outcome = s.onTaskFinished (Except.ok 0) ∧
    (s.onTaskFinished outcome).update_task = none ∧
    ((s.onTaskFinished outcome).update fs draws).state.update_task =
      some ((s.onTaskFinished outcome).buildCommand p) ∧
    ((s.onTaskFinished outcome).update fs draws).state.pending_update = none := by
  obtain ⟨gals, ti, dc, da, ut, pu, nr, ps⟩ := s
  simp only at hrun hpend
  subst hrun
  subst hpend
  have hu := update_eq_of_select_some _ fs draws p b hsel
  simp only [Option.isSome_none, Bool.false_eq_true, if_false] at hu
  rw [hu]
  exact ⟨rfl, rfl, rfl, rfl⟩

/-- Witness for C6: a running task that finished with a `JoinError` (spawn
failure panic); the slot is cleared and the next update spawns normally. -/
theorem task_failure_lifecycle_witness :
    cs2.onTaskFinished (Except.error ()) = cs2.onTaskFinished (Except.ok 0) ∧
    (cs2.onTaskFinished (Except.error ())).update_task = none ∧
    ((cs2.onTaskFinished (Except.error ())).update fsA zeroDraws).state.update_task =
      some ((cs2.onTaskFinished (Except.error ())).buildCommand "a.jpg") ∧
    ((cs2.onTaskFinished (Except.error ())).update fsA zeroDraws).state.pending_update =
      none :=
  task_failure_lifecycle cs2 runningCmd (Except.error ()) fsA zeroDraws "a.jpg"
    (cs2.onTaskFinished (Except.error ())).persistent.recenty_selected
    rfl rfl (by decide)

/-! ## Dispatcher persistence (claim C4) -/

/-- A state with gallery `g` registered but no gallery currently selected. -/
def cs4 : ApplicationState :=
  { baseState with persistent := { baseState.persistent with current_gallery := none } }

/-- Claim C4 (counterexample): handling `SelectGallery` with `refresh=false`
for the known gallery `g` changes the persisted current gallery and returns
`NewImage`, yet no snapshot is written (the persist flag of the branch is
false) — refuting the claim that every persisted-state-mutating branch
writes a snapshot before returning. -/
theorem select_gallery_no_persist_cex :
    (cs4.handle_message fsA zeroDraws 0 (.ok (.SelectGallery "g" false))).2.2 = false ∧
    (cs4.handle_message fsA zeroDraws 0
        (.ok (.SelectGallery "g" false))).1.persistent.current_gallery = some "g" ∧
    cs4.persistent.current_gallery = none ∧
    (cs4.handle_message fsA zeroDraws 0 (.ok (.SelectGallery "g" false))).2.1 =
      Response.NewImage := by
  decide

/-- Claim C4 (amended): the `Pause` and `Resume` branches write a snapshot
before returning, and `update()` writes one exactly when an image was
selected (covering `NextImage` and `SelectGallery` with `refresh=true`),
but `SelectGallery` with `refresh=false` changes the current gallery and
returns `NewImage` without writing a snapshot. -/
theorem handle_message_persist_amended (s : ApplicationState) (fs : FileSystem)
    (draws : Nat → Nat) (now : Nat) :
    (∀ name, (s.galleries.lookup name).isSome →
      s.handle_message fs draws now (.ok (.SelectGallery name false)) =
        ({ s with persistent := { s.persistent with current_gallery := some name } },
          .NewImage, false)) ∧
    (s.handle_message fs draws now (.ok .Pause)).2.2 = true ∧
    (s.handle_message fs draws now (.ok .Resume)).2.2 = true ∧
    ((s.update fs draws).persisted = true ↔ (s.select_random_image fs draws).1.isSome) := by
  refine ⟨?_, rfl, rfl, ?_⟩
  · intro name hname
    simp only [ApplicationState.handle_message, ApplicationState.change_gallery, hname]
    simp
  · cases hsel : s.select_random_image fs draws with
    | mk o b =>
      cases o with
      | none =>
        rw [update_eq_of_select_none s fs draws b hsel]
        simp
      | some p =>
        rw [update_eq_of_select_some s fs draws p b hsel]
        cases h : s.update_task <;> simp [h]

/-- Witness for the amended C4: `SelectGallery{g, refresh:false}` and
`Pause` at a concrete state. -/
theorem handle_message_persist_amended_witness :
    cs4.handle_message fsA zeroDraws 0 (.ok (.SelectGallery "g" false)) =
      ({ cs4 with persistent := { cs4.persistent with current_gallery := some "g" } },
        .NewImage, false) ∧
    (cs4.handle_message fsA zeroDraws 0 (.ok .Pause)).2.2 = true :=
  ⟨(handle_message_persist_amended cs4 fsA zeroDraws 0).1 "g" (by decide),
   (handle_message_persist_amended cs4 fsA zeroDraws 0).2.1⟩

/-! ## Buffer migration (claim C5) -/

theorem take_append_take {α : Type} (u v : List α) (n : Nat) :
    (u ++ v.take n).take n = (u ++ v).take n := by
  rw [List.take_append_eq_append_take, List.take_append_eq_append_take, List.take_take]
  congr 1
  exact congrArg (fun k => v.take k) (Nat.min_eq_left (Nat.sub_le n u.length))

theorem foldl_push_data {α : Type} (m : List α) (q : CircularQueue α)
    (h : q.data.length ≤ q.capacity) :
    (m.foldl CircularQueue.push q).capacity = q.capacity ∧
    (m.foldl CircularQueue.push q).data = (m.reverse ++ q.data).take q.capacity := by
  induction m generalizing q with
  | nil =>
    refine ⟨rfl, ?_⟩
    simp only [List.foldl_nil, List.reverse_nil, List.nil_append]
    exact (List.take_of_length_le h).symm
  | cons x xs ih =>
    simp only [List.foldl_cons, List.reverse_cons]
    by_cases hc : q.capacity = 0
    · have hnil : q.data = [] := by
        rw [hc] at h
        exact List.length_eq_zero.mp (Nat.le_zero.mp h)
      have hpush : q.push x = q := by simp [CircularQueue.push, hc]
      rw [hpush]
      have hq := ih q h
      refine ⟨hq.1, ?_⟩
      rw [hq.2, hc]
      simp
    · have hpush : q.push x =
          ⟨q.capacity, x :: q.data.take (q.capacity - 1)⟩ := by
        simp [CircularQueue.push, hc]
      have hlen : (x :: q.data.take (q.capacity - 1)).length ≤ q.capacity := by
        simp only [List.length_cons, List.length_take]
        omega
      have hq := ih ⟨q.capacity, x :: q.data.take (q.capacity - 1)⟩ hlen
      rw [hpush]
      refine ⟨hq.1, ?_⟩
      rw [hq.2]
      have hx : x :: q.data.take (q.capacity - 1) = (x :: q.data).take q.capacity := by
        cases hcap : q.capacity with
        | zero => exact absurd hcap hc
        | succ k => simp
      simp only [hx, take_append_take, List.append_assoc, List.singleton_append]

/-- Closed form of `update_persistent_state` when the incoming snapshot is
accepted: the buffer is resized to the current target capacity, keeping the
most recent entries, oldest discarded first. -/
theorem update_persistent_state_ok (s1 : ApplicationState) (st : PersistentState)
    (now : Nat)
    (hlen : st.recenty_selected.data.length ≤ st.recenty_selected.capacity)
    (hgal : ∀ g, st.current_gallery = some g → (s1.galleries.lookup g).isSome) :
    s1.update_persistent_state st now = .ok
      { s1 with
        persistent := { st with recenty_selected :=
          ⟨s1.persistent.recenty_selected.capacity,
           st.recenty_selected.data.take s1.persistent.recenty_selected.capacity⟩ }
        update_interval := s1.update_interval.pause now st.is_paused } := by
  obtain ⟨cg, rq, ip⟩ := st
  simp only at hlen
  have hmigrated : ∀ target : Nat,
      (rq.data.reverse.foldl CircularQueue.push (CircularQueue.mk target [])) =
        (⟨target, rq.data.take target⟩ : CircularQueue FsPath) := by
    intro target
    have hm := foldl_push_data rq.data.reverse (CircularQueue.mk target []) (by simp)
    have heta : (rq.data.reverse.foldl CircularQueue.push (CircularQueue.mk target [])) =
        ⟨(rq.data.reverse.foldl CircularQueue.push (CircularQueue.mk target [])).capacity,
         (rq.data.reverse.foldl CircularQueue.push (CircularQueue.mk target [])).data⟩ := rfl
    rw [heta, hm.1, hm.2]
    simp
  simp only [ApplicationState.update_persistent_state]
  by_cases hcap : rq.capacity = s1.persistent.recenty_selected.capacity
  · rw [if_neg (not_not_intro hcap)]
    have hqeq : (⟨s1.persistent.recenty_selected.capacity,
        rq.data.take s1.persistent.recenty_selected.capacity⟩ : CircularQueue FsPath) = rq := by
      rw [← hcap, List.take_of_length_le hlen]
    rw [hqeq]
    cases cg with
    | none => simp
    | some g =>
      have hg := hgal g rfl
      simp [hg]
  · rw [if_pos hcap]
    cases cg with
    | none => simp [hmigrated]
    | some g =>
      have hg := hgal g rfl
      simp [hg, hmigrated]

/-- A state whose in-memory recency buffer holds one entry at capacity 2. -/
def cs5 : ApplicationState :=
  { baseState with
    persistent := { baseState.persistent with recenty_selected := ⟨2, ["a.jpg"]⟩ } }

/-- Claim C5 (counterexample): a configuration change of the buffer capacity
from 2 to 3 (with no stored snapshot) replaces the in-memory buffer with an
empty queue of the new capacity — the contents are discarded, not
migrated. -/
theorem buffer_resize_discard_cex :
    cs5.persistent.recenty_selected.data = ["a.jpg"] ∧
    cs5.persistent.recenty_selected.capacity = 2 ∧
    (cs5.update_configuration_state 3 3 none 0).persistent.recenty_selected =
      ⟨3, []⟩ := by
  decide

/-- Claim C5 (amended): a configuration change of the buffer capacity
replaces the in-memory buffer with an empty queue of the new capacity; the
data migration happens on the snapshot-reload path instead: when a stored
snapshot is applied during `update_configuration`, its buffer is resized to
the configured capacity holding as many of the most-recent entries as fit,
the oldest discarded first. -/
theorem update_configuration_reload_migrates (s : ApplicationState)
    (cfg_retries cfg_size : Nat) (st : PersistentState) (now : Nat)
    (hlen : st.recenty_selected.data.length ≤ st.recenty_selected.capacity)
    (hgal : ∀ g, st.current_gallery = some g → (s.galleries.lookup g).isSome) :
    (s.update_configuration_state cfg_retries cfg_size (some st)
        now).persistent.recenty_selected.capacity = cfg_size ∧
    (s.update_configuration_state cfg_retries cfg_size (some st)
        now).persistent.recenty_selected.data =
      st.recenty_selected.data.take cfg_size := by
  have haux : ∀ s1 : ApplicationState,
      (∀ g, st.current_gallery = some g → (s1.galleries.lookup g).isSome) →
      (match s1.update_persistent_state st now with
        | .ok s2 => s2
        | .error _ => s1).persistent.recenty_selected.capacity =
          s1.persistent.recenty_selected.capacity ∧
      (match s1.update_persistent_state st now with
        | .ok s2 => s2
        | .error _ => s1).persistent.recenty_selected.data =
        st.recenty_selected.data.take s1.persistent.recenty_selected.capacity := by
    intro s1 hgal1
    rw [update_persistent_state_ok s1 st now hlen hgal1]
    exact ⟨rfl, rfl⟩
  simp only [ApplicationState.update_configuration_state]
  by_cases hc : cfg_size ≠ s.persistent.recenty_selected.capacity
  · rw [if_pos hc]
    apply haux
    exact hgal
  · rw [if_neg hc]
    have heq : s.persistent.recenty_selected.capacity = cfg_size := (not_not.mp hc).symm
    have h2 := haux { s with number_retries := cfg_retries } hgal
    exact ⟨h2.1.trans heq,
      h2.2.trans (congrArg (fun n => st.recenty_selected.data.take n) heq)⟩

/-- Witness for the amended C5: a stored snapshot with two entries at
capacity 2 is reloaded under configured capacity 1: only the most recent
entry `b.jpg` survives. -/
theorem update_configuration_reload_migrates_witness :
    (baseState.update_configuration_state 3 1
        (some ⟨some "g", ⟨2, ["b.jpg", "a.jpg"]⟩, false⟩)
        0).persistent.recenty_selected.capacity = 1 ∧
    (baseState.update_configuration_state 3 1
        (some ⟨some "g", ⟨2, ["b.jpg", "a.jpg"]⟩, false⟩)
        0).persistent.recenty_selected.data =
      (⟨some "g", ⟨2, ["b.jpg", "a.jpg"]⟩, false⟩ :
        PersistentState).recenty_selected.data.take 1 :=
  update_configuration_reload_migrates baseState 3 1
    ⟨some "g", ⟨2, ["b.jpg", "a.jpg"]⟩, false⟩ 0 (by decide)
    (by
      intro g hg
      have hx : g = "g" := (Option.some.inj hg).symm
      subst hx
      decide)

end Gallerica
